import Mathlib

/-!
Verification development for the agent-precommit check runner.

The Rust sources are shallowly embedded: OS-level effects (process exit
statuses, the filesystem seen through a git repository root, PATH lookups,
wall-clock time) are abstract parameters, and the control flow of
`core/executor.rs` and `core/runner.rs` is translated function by function.
Durations are modelled as natural numbers of elapsed time units.
-/

namespace AgentPrecommit

/-- Output from a command execution (`CommandOutput` in `core/executor.rs`). -/
structure CommandOutput where
  exit_code : Int
  stdout : String
  stderr : String
  timed_out : Bool
  duration : Nat
  deriving Repr, DecidableEq

/-- `CommandOutput::success`: exit code 0 and not timed out. -/
def CommandOutput.success (o : CommandOutput) : Bool :=
  o.exit_code == 0 && !o.timed_out

/-- The error type (`core/error.rs`), restricted to the constructors the
runner and executor paths can produce. -/
inductive Error where
  | CheckNotFound (name : String)
  | Io (operation : String) (message : String)
  | Internal (message : String)
  deriving Repr, DecidableEq

/-- An OS exit status: `code = none` models a process killed by a signal,
where `std::process::ExitStatus::code()` returns `None`. -/
structure ProcStatus where
  code : Option Int
  deriving Repr, DecidableEq

/-- What `child.wait()` together with the two drain tasks of
`Executor::wait_for_output` would deliver, absent any timeout: either an
exit status with the fully drained stdout/stderr text, or an I/O error
from `wait`. -/
inductive WaitBehavior where
  | finished (status : ProcStatus) (stdout stderr : String)
  | ioError (message : String)
  deriving Repr, DecidableEq

/-- `Executor::wait_for_output`: waits for the status and the drained
streams; a status without an exit code maps to exit code 1
(`status.code().unwrap_or(1)`); with `capture = false` the captured
texts are empty. -/
def wait_for_output (capture : Bool) (w : WaitBehavior) :
    Except Error (Int × String × String) :=
  match w with
  | .finished status out err =>
      if capture then .ok (status.code.getD 1, out, err)
      else .ok (status.code.getD 1, "", "")
  | .ioError m => .error (.Io "wait for command" m)

/-- Abstract behaviour of one spawned child process: whether `spawn`
itself fails, whether the wait-and-drain race finishes before the
configured timeout elapses, and what the wait would deliver. -/
structure ProcBehavior where
  spawn_error : Option String
  finishes_within_timeout : Bool
  wait : WaitBehavior
  deriving Repr, DecidableEq

/-- Result of `Executor::execute`, extended with whether the child was
killed (`child.kill()` is issued exactly on the timeout branch). -/
structure ExecOutcome where
  killed : Bool
  output : CommandOutput
  deriving Repr, DecidableEq

/-- `Executor::execute` (`core/executor.rs` lines 118-191): spawn, then
race waiting against the timeout when one is configured. On timeout the
child is killed and a synthetic output is returned with exit code 124,
`timed_out = true`, empty stdout, stderr `"Command timed out"`, and the
elapsed duration; on completion the real exit code and drained text are
returned with `timed_out = false`. -/
def execute (b : ProcBehavior) (hasTimeout : Bool) (elapsed : Nat)
    (capture : Bool) : Except Error ExecOutcome :=
  match b.spawn_error with
  | some m => .error (.Io "spawn command" m)
  | none =>
    if hasTimeout && !b.finishes_within_timeout then
      .ok { killed := true
            output := { exit_code := 124, stdout := "",
                        stderr := "Command timed out", timed_out := true,
                        duration := elapsed } }
    else
      match wait_for_output capture b.wait with
      | .ok (code, out, err) =>
          .ok { killed := false
                output := { exit_code := code, stdout := out, stderr := err,
                            timed_out := false, duration := elapsed } }
      | .error e => .error e

/-- Enablement condition of a check (`EnabledCondition` in `config/mod.rs`). -/
structure EnabledCondition where
  file_exists : Option String
  dir_exists : Option String
  command_exists : Option String
  deriving Repr, DecidableEq

/-- A check definition (`CheckConfig` in `config/mod.rs`); the environment
map is modelled as an association list. -/
structure CheckConfig where
  run : String
  description : String
  enabled_if : Option EnabledCondition
  env : List (String × String)
  deriving Repr, DecidableEq

/-- `CheckConfig::from_command`: synthesizes a definition whose `run` and
`description` are both the literal command. -/
def CheckConfig.from_command (cmd : String) : CheckConfig :=
  { run := cmd, description := cmd, enabled_if := none, env := [] }

/-- A discovered git repository, abstracted to the two filesystem
predicates the runner consults (`GitRepo::file_exists`,
`GitRepo::dir_exists`, both relative to the repository root). -/
structure GitRepo where
  file_exists : String → Bool
  dir_exists : String → Bool

/-- `check_enabled` (`core/runner.rs` lines 374-405). `cmdEx` abstracts
`Executor::command_exists` (a PATH lookup). Each of the three early
returns of the Rust function is rendered as one conjunct: a `file_exists`
or `dir_exists` predicate can return `false` only when a repository is
present (`if let Some(repo) = repo` guards the check), while
`command_exists` is evaluated unconditionally. -/
def check_enabled (cmdEx : String → Bool) (check : CheckConfig)
    (repo : Option GitRepo) : Bool :=
  match check.enabled_if with
  | none => true
  | some condition =>
    let fileOk :=
      match condition.file_exists, repo with
      | some path, some r => r.file_exists path
      | _, _ => true
    let dirOk :=
      match condition.dir_exists, repo with
      | some path, some r => r.dir_exists path
      | _, _ => true
    let cmdOk :=
      match condition.command_exists with
      | some c => cmdEx c
      | none => true
    fileOk && dirOk && cmdOk

/-- Result of running one check (`CheckResult` in `core/runner.rs`). -/
structure CheckResult where
  name : String
  passed : Bool
  output : CommandOutput
  skipped : Bool
  skip_reason : Option String
  deriving Repr, DecidableEq

/-- `CheckResult::skipped` (the associated constructor, renamed here to
avoid clashing with the field projection): a skipped check passes and
carries a zero-duration synthetic output. -/
def CheckResult.mk_skipped (name reason : String) : CheckResult :=
  { name := name
    passed := true
    output := { exit_code := 0, stdout := "", stderr := "",
                timed_out := false, duration := 0 }
    skipped := true
    skip_reason := some reason }

/-- Run modes (`core/detector.rs`). -/
inductive Mode where
  | Human
  | Agent
  | Ci
  deriving Repr, DecidableEq

/-- `Mode::is_thorough`. -/
def Mode.is_thorough : Mode → Bool
  | .Agent => true
  | .Ci => true
  | .Human => false

/-- Result of a whole run (`RunResult` in `core/runner.rs`). -/
structure RunResult where
  mode : Mode
  checks : List CheckResult
  duration : Nat
  deriving Repr, DecidableEq

/-- `RunResult::success`: all checks passed. -/
def RunResult.success (r : RunResult) : Bool :=
  r.checks.all (fun c => c.passed)

/-- `RunResult::passed_count`. -/
def RunResult.passed_count (r : RunResult) : Nat :=
  (r.checks.filter (fun c => c.passed && !c.skipped)).length

/-- `RunResult::failed_count`. -/
def RunResult.failed_count (r : RunResult) : Nat :=
  (r.checks.filter (fun c => !c.passed)).length

/-- `run_check_async` (`core/runner.rs` lines 296-371), with progress
display elided and the executor abstracted to `exec`, which maps the
check's command and environment to the outcome `Executor::execute`
produces for it. A disabled check is reported skipped with reason
`"Condition not met"`; otherwise the command output becomes the check
result with `passed = output.success()`. -/
def run_check_async (cmdEx : String → Bool)
    (exec : String → List (String × String) → Except Error CommandOutput)
    (name : String) (check : CheckConfig) (repo : Option GitRepo) :
    Except Error CheckResult :=
  if !check_enabled cmdEx check repo then
    .ok (CheckResult.mk_skipped name "Condition not met")
  else
    match exec check.run check.env with
    | .error e => .error e
    | .ok output =>
        .ok { name := name, passed := output.success, output := output,
              skipped := false, skip_reason := none }

/-- `Runner::run_single` (`core/runner.rs` lines 159-169): a name with no
definition in `config.checks` is a `CheckNotFound` error; otherwise the
check is run. `checks` abstracts the configuration's check map and
`runCheck` the `run_check` call. -/
def run_single (checks : String → Option CheckConfig)
    (runCheck : String → CheckConfig → Except Error CheckResult)
    (name : String) : Except Error CheckResult :=
  match checks name with
  | none => .error (.CheckNotFound name)
  | some check => runCheck name check

/-- `Runner::resolve_checks` (`core/runner.rs` lines 180-195): each name
resolves to its configured definition, or to
`CheckConfig::from_command(name)` when undefined; the loop never fails. -/
def resolve_checks (checks : String → Option CheckConfig) :
    List String → Except Error (List (String × CheckConfig))
  | [] => .ok []
  | name :: rest =>
    let check := (checks name).getD (CheckConfig.from_command name)
    match resolve_checks checks rest with
    | .error e => .error e
    | .ok tail => .ok ((name, check) :: tail)

/-- `Runner::run_sequential` (`core/runner.rs` lines 198-218): run each
check in order, pushing its result; after a failed result, stop when
`fail_fast` is set. -/
def run_sequential (fail_fast : Bool)
    (runCheck : String → CheckConfig → Except Error CheckResult) :
    List (String × CheckConfig) → Except Error (List CheckResult)
  | [] => .ok []
  | (name, check) :: rest =>
    match runCheck name check with
    | .error e => .error e
    | .ok result =>
      if !result.passed && fail_fast then
        .ok [result]
      else
        match run_sequential fail_fast runCheck rest with
        | .error e => .error e
        | .ok results => .ok (result :: results)

/-- The `HashMap` built by `Runner::run_parallel_groups` from the resolved
check list (`checks.iter().cloned().collect()`): lookup with
later-entry-wins semantics. -/
def check_map_of (checks : List (String × CheckConfig)) (name : String) :
    Option CheckConfig :=
  checks.foldl (fun acc p => if p.1 == name then some p.2 else acc) none

/-- The per-group resolution step of `Runner::run_parallel_groups`
(lines 240-243): names without an entry in the check map are dropped by
`filter_map`. -/
def resolve_group (check_map : String → Option CheckConfig)
    (group : List String) : List (String × CheckConfig) :=
  group.filterMap (fun name => (check_map name).map (fun c => (name, c)))

/-- The await loop over a group's spawned tasks (`Runner::run_parallel_groups`
lines 249-274): every handle is awaited in spawn order and its result
pushed; a failed (`Err`) check result aborts the whole run. -/
def await_group (runCheck : String → CheckConfig → Except Error CheckResult) :
    List (String × CheckConfig) → Except Error (List CheckResult)
  | [] => .ok []
  | (name, check) :: rest =>
    match runCheck name check with
    | .error e => .error e
    | .ok r =>
      match await_group runCheck rest with
      | .error e => .error e
      | .ok rs => .ok (r :: rs)

/-- The group loop of `Runner::run_parallel_groups` (lines 239-284):
groups are processed strictly in order, accumulating into `acc`
(`all_results` in the Rust). A group with no matching names is skipped
(`continue`); otherwise all its tasks are awaited and appended, and then,
when `fail_fast` is set, the loop breaks if any accumulated result so far
has failed. -/
def run_groups_loop (fail_fast : Bool)
    (runCheck : String → CheckConfig → Except Error CheckResult)
    (check_map : String → Option CheckConfig) :
    List (List String) → List CheckResult → Except Error (List CheckResult)
  | [], acc => .ok acc
  | group :: rest, acc =>
    let group_checks := resolve_group check_map group
    if group_checks.isEmpty then
      run_groups_loop fail_fast runCheck check_map rest acc
    else
      match await_group runCheck group_checks with
      | .error e => .error e
      | .ok results =>
        let acc2 := acc ++ results
        if fail_fast && acc2.any (fun r => !r.passed) then
          .ok acc2
        else
          run_groups_loop fail_fast runCheck check_map rest acc2

/-- The group list used by `Runner::run_parallel_groups` (lines 229-234):
the configured `parallel_groups`, or a single group holding every resolved
check name when none are configured. -/
def effective_groups (parallel_groups : List (List String))
    (checks : List (String × CheckConfig)) : List (List String) :=
  if parallel_groups.isEmpty then [checks.map (fun p => p.1)]
  else parallel_groups

/-- `Runner::run_parallel_groups` (`core/runner.rs` lines 221-287), with
the concurrency limiter abstracted away: the denotation records which
results are accumulated and in which group order. -/
def run_parallel_groups (fail_fast : Bool)
    (parallel_groups : List (List String))
    (runCheck : String → CheckConfig → Except Error CheckResult)
    (checks : List (String × CheckConfig)) : Except Error (List CheckResult) :=
  run_groups_loop fail_fast runCheck (check_map_of checks)
    (effective_groups parallel_groups checks) []

/-- A check runner that always returns a result (no internal error); used
to state scheduling claims about error-free runs. -/
def wrap (f : String → CheckConfig → CheckResult) :
    String → CheckConfig → Except Error CheckResult :=
  fun name check => .ok (f name check)

/-- Spec-level description of sequential fail-fast: the results of the
checks up to and including the first failing one, in order. -/
def stop_after_first_failure : List CheckResult → List CheckResult
  | [] => []
  | r :: rs => if r.passed then r :: stop_after_first_failure rs else [r]

/-- Spec-level description of grouped execution, over the per-group result
blocks: each block is appended whole (all of the group's tasks are awaited
to completion), and with `fail_fast` set the run stops before starting the
next group whenever any result accumulated anywhere in the run so far has
failed. -/
def run_groups_spec (fail_fast : Bool) :
    List (List CheckResult) → List CheckResult → List CheckResult
  | [], acc => acc
  | block :: rest, acc =>
    let acc2 := acc ++ block
    if fail_fast && acc2.any (fun r => !r.passed) then acc2
    else run_groups_spec fail_fast rest acc2

/-- C1 (counterexample): at a concrete timed-out execution, the captured
stderr of the synthetic output is the literal text `"Command timed out"`,
which is not the empty string the claim requires. -/
theorem execute_timeout_stderr_counterexample :
    (execute { spawn_error := none, finishes_within_timeout := false,
               wait := .finished { code := some 0 } "" "" } true 7 true).map
        (fun r => r.output.stderr) = .ok "Command timed out" ∧
    (("Command timed out" : String) == "") = false := by
  constructor
  · rfl
  · decide

/-- C1 (amended): when the child outlives the configured timeout,
`execute` kills the child and returns, with no error, a synthetic
`CommandOutput` with exit code 124, `timed_out = true`, empty stdout,
stderr equal to the literal `"Command timed out"`, and the elapsed
duration — for every wait behaviour, elapsed time, and capture setting. -/
theorem execute_timeout_synthetic_output (w : WaitBehavior) (elapsed : Nat)
    (capture : Bool) :
    execute { spawn_error := none, finishes_within_timeout := false,
              wait := w } true elapsed capture =
      .ok { killed := true
            output := { exit_code := 124, stdout := "",
                        stderr := "Command timed out", timed_out := true,
                        duration := elapsed } } := rfl

/-- C8: a command that completes without timing out but whose OS-reported
exit status carries no exit code (killed by a signal) yields exit code 1,
for any timeout setting, capture setting, and drained output. -/
theorem execute_signal_exit_code_one (out err : String) (elapsed : Nat)
    (capture hasTimeout : Bool) :
    execute { spawn_error := none, finishes_within_timeout := true,
              wait := .finished { code := none } out err }
        hasTimeout elapsed capture =
      .ok { killed := false
            output := { exit_code := 1
                        stdout := if capture then out else ""
                        stderr := if capture then err else ""
                        timed_out := false, duration := elapsed } } := by
  cases hasTimeout <;> cases capture <;> rfl

/-- C2 (counterexample): a check whose enablement condition is exactly a
`file_exists` predicate is still enabled when no repository was
discovered — `check_enabled` returns `true`, not `false` as claimed, even
when no command exists on PATH. -/
theorem check_enabled_absent_repo_counterexample :
    check_enabled (fun _ => false)
      { run := "cargo fmt --check", description := "fmt",
        enabled_if := some { file_exists := some "Cargo.toml",
                             dir_exists := none, command_exists := none },
        env := [] } none = true := rfl

/-- C2 (amended): when no repository was discovered (`repo = None`), the
`file_exists` and `dir_exists` predicates are skipped (treated as
satisfied, leaving the check enabled), and enablement is decided by the
`command_exists` predicate alone, evaluated directly against PATH. -/
theorem check_enabled_absent_repo (cmdEx : String → Bool)
    (check : CheckConfig) (cond : EnabledCondition)
    (h : check.enabled_if = some cond) :
    check_enabled cmdEx check none =
      match cond.command_exists with
      | some c => cmdEx c
      | none => true := by
  cases hf : cond.file_exists <;> cases hd : cond.dir_exists <;>
    cases hc : cond.command_exists <;>
      simp [check_enabled, h, hf, hd, hc]

/-- Witness for `check_enabled_absent_repo` at a concrete check whose
condition has a `file_exists` predicate and no `command_exists`. -/
theorem check_enabled_absent_repo_witness :
    ({ run := "x", description := "x",
       enabled_if := some { file_exists := some "Cargo.toml",
                            dir_exists := none, command_exists := none },
       env := [] } : CheckConfig).enabled_if =
      some { file_exists := some "Cargo.toml", dir_exists := none,
             command_exists := none } ∧
    check_enabled (fun _ => false)
      { run := "x", description := "x",
        enabled_if := some { file_exists := some "Cargo.toml",
                             dir_exists := none, command_exists := none },
        env := [] } none = true :=
  ⟨rfl, (check_enabled_absent_repo (fun _ => false) _ _ rfl).trans rfl⟩

/-- C5: every skipped `CheckResult` has `passed = true`, `skipped = true`,
a skip reason present, and a synthetic zero-duration output with exit
code 0, `timed_out = false` and empty streams; and whenever a check's
enablement condition fails, `run_check_async` produces exactly such a
skipped result with reason `"Condition not met"`. -/
theorem skipped_result_invariant (name reason : String)
    (cmdEx : String → Bool)
    (exec : String → List (String × String) → Except Error CommandOutput)
    (check : CheckConfig) (repo : Option GitRepo)
    (h : check_enabled cmdEx check repo = false) :
    (CheckResult.mk_skipped name reason).passed = true ∧
    (CheckResult.mk_skipped name reason).skipped = true ∧
    (CheckResult.mk_skipped name reason).skip_reason = some reason ∧
    (CheckResult.mk_skipped name reason).output =
      { exit_code := 0, stdout := "", stderr := "", timed_out := false,
        duration := 0 } ∧
    run_check_async cmdEx exec name check repo =
      .ok (CheckResult.mk_skipped name "Condition not met") := by
  refine ⟨rfl, rfl, rfl, rfl, ?_⟩
  simp [run_check_async, h]

/-- Witness for `skipped_result_invariant`: a check requiring a
nonexistent command, with no repository, is skipped. -/
theorem skipped_result_invariant_witness :
    check_enabled (fun _ => false)
      { run := "mypy .", description := "types",
        enabled_if := some { file_exists := none, dir_exists := none,
                             command_exists := some "mypy" },
        env := [] } none = false ∧
    run_check_async (fun _ => false)
      (fun _ _ => .ok { exit_code := 0, stdout := "", stderr := "",
                        timed_out := false, duration := 0 })
      "typecheck"
      { run := "mypy .", description := "types",
        enabled_if := some { file_exists := none, dir_exists := none,
                             command_exists := some "mypy" },
        env := [] } none =
      .ok (CheckResult.mk_skipped "typecheck" "Condition not met") :=
  ⟨rfl,
   (skipped_result_invariant "typecheck" "r" (fun _ => false)
      (fun _ _ => .ok { exit_code := 0, stdout := "", stderr := "",
                        timed_out := false, duration := 0 })
      { run := "mypy .", description := "types",
        enabled_if := some { file_exists := none, dir_exists := none,
                             command_exists := some "mypy" },
        env := [] } none rfl).2.2.2.2⟩

/-- C6: `RunResult.success` is true iff every check result passed, for
every report; in particular the empty report is a success. -/
theorem run_result_success_iff_all_passed (mode : Mode)
    (checks : List CheckResult) (duration : Nat) :
    ((RunResult.mk mode checks duration).success = true ↔
      ∀ c ∈ checks, c.passed = true) ∧
    (RunResult.mk mode [] duration).success = true := by
  constructor
  · simp [RunResult.success]
  · rfl

/-- C7: `resolve_checks` never fails and returns one entry per requested
name in order — the configured definition when present, otherwise the
synthesized `from_command` definition, whose `run` and `description` both
equal the literal name, with no enablement condition and an empty
environment. -/
theorem resolve_checks_never_fails (checks : String → Option CheckConfig)
    (names : List String) :
    resolve_checks checks names =
      .ok (names.map
        (fun name => (name, (checks name).getD (CheckConfig.from_command name)))) ∧
    ∀ name, CheckConfig.from_command name =
      { run := name, description := name, enabled_if := none, env := [] } := by
  refine ⟨?_, fun _ => rfl⟩
  induction names with
  | nil => rfl
  | cons n rest ih => simp [resolve_checks, ih]

/-- C9: `run_single` on a name with no configured definition returns the
distinct `CheckNotFound` error without running anything (the result is
this error for every possible check-running function), while the full-run
resolution path turns the same unknown name into a literal command. -/
theorem run_single_unknown_name (checks : String → Option CheckConfig)
    (runCheck : String → CheckConfig → Except Error CheckResult)
    (name : String) (h : checks name = none) :
    run_single checks runCheck name = .error (.CheckNotFound name) ∧
    resolve_checks checks [name] = .ok [(name, CheckConfig.from_command name)] := by
  constructor
  · simp [run_single, h]
  · simp [resolve_checks, h]

/-- Witness for `run_single_unknown_name` on an empty configuration. -/
theorem run_single_unknown_name_witness :
    ((fun _ => (none : Option CheckConfig)) "lint" = none) ∧
    run_single (fun _ => none)
      (fun n _ => .ok (CheckResult.mk_skipped n "r")) "lint" =
      .error (.CheckNotFound "lint") ∧
    resolve_checks (fun _ => none) ["lint"] =
      .ok [("lint", CheckConfig.from_command "lint")] :=
  ⟨rfl,
   (run_single_unknown_name (fun _ => none)
      (fun n _ => .ok (CheckResult.mk_skipped n "r")) "lint" rfl).1,
   (run_single_unknown_name (fun _ => none)
      (fun n _ => .ok (CheckResult.mk_skipped n "r")) "lint" rfl).2⟩

/-- C3: sequential execution with fail-fast enabled produces exactly the
results of the checks up to and including the first failing one, in
declared order; checks after the first failure contribute nothing to the
report. Stated for an arbitrary error-free check runner `f`. -/
theorem run_sequential_fail_fast_prefix
    (f : String → CheckConfig → CheckResult)
    (checks : List (String × CheckConfig)) :
    run_sequential true (wrap f) checks =
      .ok (stop_after_first_failure (checks.map (fun p => f p.1 p.2))) := by
  induction checks with
  | nil => rfl
  | cons p rest ih =>
    obtain ⟨name, check⟩ := p
    cases h : (f name check).passed <;>
      simp [run_sequential, wrap, stop_after_first_failure, h, ih]

/-- Each group's await loop, applied to an error-free runner, collects the
results of all of the group's tasks in spawn order. -/
theorem await_group_wrap (f : String → CheckConfig → CheckResult) :
    ∀ l : List (String × CheckConfig),
      await_group (wrap f) l = .ok (l.map (fun p => f p.1 p.2))
  | [] => rfl
  | (name, check) :: rest => by
    simp [await_group, wrap, await_group_wrap f rest]

/-- The group loop refines the spec-level description, for any
accumulator that does not already trigger the fail-fast stop. -/
theorem run_groups_loop_spec (ff : Bool)
    (f : String → CheckConfig → CheckResult)
    (cm : String → Option CheckConfig) :
    ∀ (groups : List (List String)) (acc : List CheckResult),
      (ff && acc.any (fun r => !r.passed)) = false →
      run_groups_loop ff (wrap f) cm groups acc =
        .ok (run_groups_spec ff
          (groups.map
            (fun g => (resolve_group cm g).map (fun p => f p.1 p.2))) acc) := by
  intro groups
  induction groups with
  | nil =>
    intro acc _
    rfl
  | cons g rest ih =>
    intro acc hacc
    by_cases hg : (resolve_group cm g).isEmpty
    · have hnil : resolve_group cm g = [] := by
        simpa using hg
      simp [run_groups_loop, hg, ih acc hacc, run_groups_spec, hnil, hacc]
    · cases hfail : ff &&
          ((acc ++ (resolve_group cm g).map (fun p => f p.1 p.2)).any
            (fun r => !r.passed)) with
      | true =>
        simp [run_groups_loop, hg, await_group_wrap, run_groups_spec]
        rw [hfail]
        simp
      | false =>
        simp [run_groups_loop, hg, await_group_wrap, run_groups_spec,
              ih _ hfail]
        rw [hfail]
        simp

/-- C4: for every error-free run, grouped execution equals the spec-level
description: groups are processed strictly one after another, each group's
tasks are all awaited and their results appended as one block, and with
fail-fast enabled the run stops before starting the next group exactly
when some result accumulated anywhere in the entire run so far has
failed. -/
theorem run_parallel_groups_refines_spec (ff : Bool)
    (pgroups : List (List String))
    (f : String → CheckConfig → CheckResult)
    (checks : List (String × CheckConfig)) :
    run_parallel_groups ff pgroups (wrap f) checks =
      .ok (run_groups_spec ff
        ((effective_groups pgroups checks).map
          (fun g => (resolve_group (check_map_of checks) g).map
            (fun p => f p.1 p.2))) []) :=
  run_groups_loop_spec ff f (check_map_of checks)
    (effective_groups pgroups checks) [] (by simp)

/-- C10: a name listed in a parallel group with no entry in the resolved
check map is silently dropped — the group loop behaves exactly as if the
name were absent, with no error and no result for it — and a group with
no matching names is skipped entirely, execution proceeding with the
remaining groups. -/
theorem run_groups_unknown_name_dropped (ff : Bool)
    (rc : String → CheckConfig → Except Error CheckResult)
    (cm : String → Option CheckConfig) (name : String)
    (pre post : List String) (rest : List (List String))
    (acc : List CheckResult) (h : cm name = none) :
    run_groups_loop ff rc cm ((pre ++ name :: post) :: rest) acc =
      run_groups_loop ff rc cm ((pre ++ post) :: rest) acc ∧
    run_groups_loop ff rc cm ([] :: rest) acc =
      run_groups_loop ff rc cm rest acc := by
  constructor
  · have hdrop : resolve_group cm (pre ++ name :: post) =
        resolve_group cm (pre ++ post) := by
      simp [resolve_group, h]
    simp [run_groups_loop, hdrop]
  · simp [run_groups_loop, resolve_group]

/-- Witness for `run_groups_unknown_name_dropped` on a one-name group over
an empty check map. -/
theorem run_groups_unknown_name_dropped_witness :
    ((fun _ => (none : Option CheckConfig)) "ghost" = none) ∧
    run_groups_loop false (wrap (fun n _ => CheckResult.mk_skipped n "w"))
        (fun _ => none) (([] ++ "ghost" :: []) :: [[]]) [] =
      run_groups_loop false (wrap (fun n _ => CheckResult.mk_skipped n "w"))
        (fun _ => none) (([] ++ []) :: [[]]) [] ∧
    run_groups_loop false (wrap (fun n _ => CheckResult.mk_skipped n "w"))
        (fun _ => none) ([] :: [[]]) [] =
      run_groups_loop false (wrap (fun n _ => CheckResult.mk_skipped n "w"))
        (fun _ => none) [[]] [] :=
  ⟨rfl,
   (run_groups_unknown_name_dropped false
      (wrap (fun n _ => CheckResult.mk_skipped n "w")) (fun _ => none)
      "ghost" [] [] [[]] [] rfl).1,
   (run_groups_unknown_name_dropped false
      (wrap (fun n _ => CheckResult.mk_skipped n "w")) (fun _ => none)
      "ghost" [] [] [[]] [] rfl).2⟩

end AgentPrecommit
